import Mathlib

/-!
# devtunnel core — shallow embedding and verification

This file embeds the core data model and operations of the `devtunnel`
repository (Go) in Lean 4 and proves properties of them.

* `src/tunnel/ratelimit.go` — sliding-window request limiter and
  per-subdomain connection counter (`AllowRequest`, `AcquireConnection`,
  `ReleaseConnection`), frame types, `generateSubdomain`.
* `src/tunnel/server.go` — `handleConnect` subdomain assignment,
  `extractSubdomainFromHost`, `handleSubdomainProxy`.
* `src/tunnel/client.go` — `connectWithBackoff`, `handleStream`, `sendError`.

Go strings are embedded as `List Char`, Go `int64` millisecond timestamps as
`Int`, byte slices holding text as `List Char`.  Go maps with a default zero
value are embedded either as total functions (the sliding windows) or as
association lists (the connection counters, where presence/absence of an
entry is observable).
-/

namespace DevTunnel

/-! ## Rate limiter: sliding window (`src/tunnel/ratelimit.go`, `AllowRequest`)

The Go code keeps, per subdomain, `window.timestamps []int64` (UnixMilli).
On each check it computes `windowStart := now - 60000`, keeps only
timestamps `ts > windowStart`, denies when `len >= requestsPerMin` with
`retryAfter := int((oldest + 60000 - now) / 1000)` clamped up to 1
(Go `/` on integers truncates), and otherwise appends `now`.
-/

/-- The sliding window length in milliseconds (`now - 60000` in the source). -/
def windowMs : Int := 60000

/-- The prune step of `AllowRequest`: keep timestamps `ts > now - 60000`. -/
def pruneWindow (now : Int) (w : List Int) : List Int :=
  w.filter (fun ts => now - windowMs < ts)

/-- `RateLimiter.AllowRequest` for one subdomain's window.  Returns
(allowed, retryAfter, new stored window).  `requestsPerMin` is the
configured limit, `now` the current UnixMilli time, `w` the stored
`window.timestamps`. -/
def allowRequest (requestsPerMin : Nat) (now : Int) (w : List Int) :
    Bool × Int × List Int :=
  let valid := pruneWindow now w
  if requestsPerMin ≤ valid.length then
    let oldest := valid.headI
    let retryAfter := (oldest + windowMs - now).tdiv 1000
    (false, if retryAfter < 1 then 1 else retryAfter, valid)
  else
    (true, 0, valid ++ [now])

/-- The `Retry-After` value in the words of the spec:
`ceil((oldest_ts + 60 s − now) / 1 s)` seconds, minimum 1.  Stated for
comparison with the value the source computes. -/
def retryAfterSpecCeil (oldest now : Int) : Int :=
  max 1 ((oldest + windowMs - now + 999).fdiv 1000)

lemma pruneWindow_nil (now : Int) : pruneWindow now [] = [] := rfl

lemma mem_pruneWindow {now ts : Int} {w : List Int} :
    ts ∈ pruneWindow now w ↔ ts ∈ w ∧ now - windowMs < ts := by
  simp [pruneWindow]

lemma pruneWindow_pruneWindow {now now' : Int} (h : now ≤ now') (w : List Int) :
    pruneWindow now' (pruneWindow now w) = pruneWindow now' w := by
  unfold pruneWindow
  rw [List.filter_filter]
  apply List.filter_congr
  intro ts _
  by_cases h1 : now' - windowMs < ts
  · have h2 : now - windowMs < ts := lt_of_le_of_lt (by omega) h1
    simp [h1, h2]
  · simp [h1]

/-- `allowRequest` only depends on the window through its pruned form. -/
lemma allowRequest_congr (limit : Nat) (now : Int) {w w' : List Int}
    (h : pruneWindow now w = pruneWindow now w') :
    allowRequest limit now w = allowRequest limit now w' := by
  unfold allowRequest
  rw [h]

lemma allowRequest_denied_eq (limit : Nat) (now : Int) (w : List Int)
    (h : limit ≤ (pruneWindow now w).length) :
    allowRequest limit now w =
      (false,
       max 1 (((pruneWindow now w).headI + windowMs - now).tdiv 1000),
       pruneWindow now w) := by
  unfold allowRequest
  simp only [if_pos h]
  refine Prod.ext rfl (Prod.ext ?_ rfl)
  show (if ((pruneWindow now w).headI + windowMs - now).tdiv 1000 < 1 then 1
        else ((pruneWindow now w).headI + windowMs - now).tdiv 1000) = _
  rcases lt_or_le (((pruneWindow now w).headI + windowMs - now).tdiv 1000) 1 with hlt | hle
  · rw [if_pos hlt, max_eq_left (le_of_lt hlt)]
  · rw [if_neg (not_lt.mpr hle), max_eq_right hle]

/-- C2: denied checks return `Retry-After =
max 1 (floor((oldest + 60 s − now) / 1 s))` — the Go source divides with
truncating integer division, so the value is the *floor* of the remaining
window time clamped up to 1, not the ceiling the spec prescribes; it is
still always ≥ 1.  (`src/tunnel/ratelimit.go`, `AllowRequest`.) -/
theorem allowRequest_denied_retryAfter_floor (limit : Nat) (now : Int) (w : List Int)
    (h : limit ≤ (pruneWindow now w).length) :
    (allowRequest limit now w).1 = false
    ∧ (allowRequest limit now w).2.1 =
        max 1 (((pruneWindow now w).headI + windowMs - now).tdiv 1000)
    ∧ 1 ≤ (allowRequest limit now w).2.1 := by
  rw [allowRequest_denied_eq limit now w h]
  exact ⟨rfl, rfl, le_max_left 1 _⟩

/-- C2 witness: a concrete denied check (limit 1, window `[1500]`, now 60000). -/
theorem allowRequest_denied_retryAfter_floor_witness :
    (allowRequest 1 60000 [1500]).1 = false
    ∧ (allowRequest 1 60000 [1500]).2.1 =
        max 1 (((pruneWindow 60000 [1500]).headI + windowMs - 60000).tdiv 1000)
    ∧ 1 ≤ (allowRequest 1 60000 [1500]).2.1 :=
  allowRequest_denied_retryAfter_floor 1 60000 [1500] (by decide)

/-- C2 counterexample: with the window holding one sample 1500 ms into the
window and `now = 60000`, 1500 ms of the sample's minute remain; the spec's
`ceil` formula gives 2 seconds but the code answers `Retry-After = 1`. -/
theorem allowRequest_retryAfter_not_ceil :
    (allowRequest 1 60000 [1500]).1 = false
    ∧ (allowRequest 1 60000 [1500]).2.1 = 1
    ∧ retryAfterSpecCeil 1500 60000 = 2
    ∧ (allowRequest 1 60000 [1500]).2.1 ≠ retryAfterSpecCeil 1500 60000 := by
  decide

/-- C9: a denied `AllowRequest` stores only the pruned window — the denied
request's own timestamp is not recorded.  The not-yet-expired timestamps
after the denial are exactly those from before the check, and any later
check (at `now' ≥ now`) behaves exactly as if the denied check had never
happened.  (`src/tunnel/ratelimit.go`, `AllowRequest`.) -/
theorem allowRequest_denied_preserves_window (limit : Nat) (now now' : Int) (w : List Int)
    (hd : (allowRequest limit now w).1 = false) (hle : now ≤ now') :
    (allowRequest limit now w).2.2 = pruneWindow now w
    ∧ (∀ ts : Int, ts ∈ (allowRequest limit now w).2.2 ↔ ts ∈ w ∧ now - windowMs < ts)
    ∧ allowRequest limit now' (allowRequest limit now w).2.2 = allowRequest limit now' w := by
  have hlim : limit ≤ (pruneWindow now w).length := by
    by_contra hc
    have ht : (allowRequest limit now w).1 = true := by
      unfold allowRequest
      simp only [if_neg hc]
    rw [hd] at ht
    exact Bool.noConfusion ht
  rw [allowRequest_denied_eq limit now w hlim]
  refine ⟨rfl, fun ts => mem_pruneWindow, ?_⟩
  exact allowRequest_congr limit now' (pruneWindow_pruneWindow hle w)

/-- C9 witness: concrete denial (limit 1, window `[1500]`, now 60000,
later check at 60500). -/
theorem allowRequest_denied_preserves_window_witness :
    (allowRequest 1 60000 [1500]).2.2 = pruneWindow 60000 [1500]
    ∧ (∀ ts : Int, ts ∈ (allowRequest 1 60000 [1500]).2.2 ↔
        ts ∈ [(1500 : Int)] ∧ 60000 - windowMs < ts)
    ∧ allowRequest 1 60500 (allowRequest 1 60000 [1500]).2.2 =
        allowRequest 1 60500 [1500] :=
  allowRequest_denied_preserves_window 1 60000 60500 [1500] (by decide) (by decide)

/-! ## Sliding-window admission invariant (C4)

`RateLimiter.windows` is a Go map `subdomain → *slidingWindow`; a missing
key behaves as an empty window (the source allocates `&slidingWindow{}` on
first use).  It is embedded as a total function `String → List Int` whose
initial value is `fun _ => []`.  A run of `AllowRequest` calls is a list of
`(subdomain, UnixMilli)` pairs with nondecreasing times (`time.Now` under
the limiter's mutex).
-/

/-- One `AllowRequest` call as seen by the limiter: target subdomain and
the value of `time.Now().UnixMilli()` during the call. -/
structure Call where
  sub : String
  time : Int
deriving DecidableEq

/-- Point update of the windows map (`rl.windows[subdomain] = window`). -/
def updateWindows (ws : String → List Int) (s : String) (w : List Int) :
    String → List Int :=
  fun s' => if s' = s then w else ws s'

/-- The calls of a run that `AllowRequest` admitted, threading the windows
map through the run. -/
def admittedCalls (limit : Nat) (ws : String → List Int) : List Call → List Call
  | [] => []
  | c :: cs =>
    if (allowRequest limit c.time (ws c.sub)).1 then
      c :: admittedCalls limit
        (updateWindows ws c.sub (allowRequest limit c.time (ws c.sub)).2.2) cs
    else
      admittedCalls limit
        (updateWindows ws c.sub (allowRequest limit c.time (ws c.sub)).2.2) cs

/-- Single-window restriction of `admittedCalls`: the admitted timestamps of
a run of checks against one subdomain's window. -/
def admittedTimes (limit : Nat) (w : List Int) : List Int → List Int
  | [] => []
  | t :: ts =>
    if (allowRequest limit t w).1 then
      t :: admittedTimes limit (allowRequest limit t w).2.2 ts
    else
      admittedTimes limit (allowRequest limit t w).2.2 ts

/-- Number of timestamps of `l` inside the 60-second window `(t, t + 60 s]`. -/
def countInWindow (t : Int) (l : List Int) : Nat :=
  (l.filter (fun a => t < a ∧ a ≤ t + windowMs)).length

lemma pruneWindow_append_self (now : Int) (l : List Int) :
    pruneWindow now l ++ [now] = pruneWindow now (l ++ [now]) := by
  unfold pruneWindow
  rw [List.filter_append]
  have h : now - windowMs < now := by unfold windowMs; omega
  simp [h]

/-- Per-subdomain projection: the admitted times of a full run for one
subdomain are the admitted times of the single-window run over that
subdomain's calls. -/
lemma admittedCalls_project (limit : Nat) (sub : String) :
    ∀ (calls : List Call) (ws : String → List Int),
      ((admittedCalls limit ws calls).filter (fun c => c.sub = sub)).map Call.time
        = admittedTimes limit (ws sub)
            ((calls.filter (fun c => c.sub = sub)).map Call.time) := by
  intro calls
  induction calls with
  | nil => intro ws; rfl
  | cons c cs ih =>
    intro ws
    simp only [admittedCalls]
    by_cases hc : c.sub = sub
    · have hws : ws c.sub = ws sub := by rw [hc]
      rw [hws]
      have hupd : updateWindows ws c.sub (allowRequest limit c.time (ws sub)).2.2 sub
          = (allowRequest limit c.time (ws sub)).2.2 := by
        unfold updateWindows
        rw [if_pos hc.symm]
      have hfilt : ∀ L : List Call, List.filter (fun x => decide (x.sub = sub)) (c :: L)
          = c :: List.filter (fun x => decide (x.sub = sub)) L := by
        intro L
        simp [List.filter_cons, hc]
      by_cases hr : (allowRequest limit c.time (ws sub)).1
      · rw [if_pos hr, hfilt, hfilt, List.map_cons, List.map_cons, ih _, hupd]
        simp only [admittedTimes]
        rw [if_pos hr]
      · rw [if_neg hr, hfilt, List.map_cons, ih _, hupd]
        simp only [admittedTimes]
        rw [if_neg hr]
    · have hupd : updateWindows ws c.sub (allowRequest limit c.time (ws c.sub)).2.2 sub
          = ws sub := by
        unfold updateWindows
        rw [if_neg (fun h => hc h.symm)]
      have hfilt : ∀ L : List Call, List.filter (fun x => decide (x.sub = sub)) (c :: L)
          = List.filter (fun x => decide (x.sub = sub)) L := by
        intro L
        simp [List.filter_cons, hc]
      by_cases hr : (allowRequest limit c.time (ws c.sub)).1
      · rw [if_pos hr, hfilt, hfilt, ih _, hupd]
      · rw [if_neg hr, hfilt, ih _, hupd]

/-- Core bound: starting from a window that is the pruned image of the
already-admitted timestamps, no 60-second interval ever holds more than
`limit` admitted timestamps. -/
lemma admittedTimes_window_bound (limit : Nat) :
    ∀ (ts : List Int) (T : Int) (a0 : List Int),
      ts.Pairwise (· ≤ ·) →
      (∀ x ∈ ts, T ≤ x) →
      (∀ u, countInWindow u a0 ≤ limit) →
      ∀ u, countInWindow u (a0 ++ admittedTimes limit (pruneWindow T a0) ts) ≤ limit := by
  intro ts
  induction ts with
  | nil =>
    intro T a0 _ _ hcount u
    simpa [admittedTimes] using hcount u
  | cons t ts ih =>
    intro T a0 hpw hlow hcount u
    have hTt : T ≤ t := hlow t (List.mem_cons_self t ts)
    have hprune : pruneWindow t (pruneWindow T a0) = pruneWindow t a0 :=
      pruneWindow_pruneWindow hTt a0
    have hlow' : ∀ x ∈ ts, t ≤ x := (List.pairwise_cons.1 hpw).1
    have hpw' : ts.Pairwise (· ≤ ·) := (List.pairwise_cons.1 hpw).2
    by_cases hlim : limit ≤ (pruneWindow t (pruneWindow T a0)).length
    · -- denied: no timestamp recorded, recurse with the pruned window
      have heq : allowRequest limit t (pruneWindow T a0)
          = (false,
             max 1 (((pruneWindow t (pruneWindow T a0)).headI + windowMs - t).tdiv 1000),
             pruneWindow t (pruneWindow T a0)) :=
        allowRequest_denied_eq limit t (pruneWindow T a0) hlim
      simp only [admittedTimes, heq]
      rw [hprune]
      exact ih t a0 hpw' hlow' hcount u
    · -- admitted: `t` is appended; the window stayed strictly under the limit
      have hlt : (pruneWindow t a0).length < limit := by
        rw [← hprune]
        exact not_le.1 hlim
      have heq : allowRequest limit t (pruneWindow T a0)
          = (true, 0, pruneWindow t (pruneWindow T a0) ++ [t]) := by
        unfold allowRequest
        simp only [if_neg hlim]
      have hcount' : ∀ v, countInWindow v (a0 ++ [t]) ≤ limit := by
        intro v
        unfold countInWindow
        rw [List.filter_append, List.length_append]
        by_cases hv : v < t ∧ t ≤ v + windowMs
        · have hone : ([t].filter (fun a => v < a ∧ a ≤ v + windowMs)).length = 1 := by
            simp [hv.1, hv.2]
          have hsub : List.Sublist (a0.filter (fun a => v < a ∧ a ≤ v + windowMs))
              (pruneWindow t a0) := by
            unfold pruneWindow
            apply List.monotone_filter_right
            intro a ha
            have ha' : v < a ∧ a ≤ v + windowMs := by simpa using ha
            have hva : t - windowMs ≤ v := by omega
            simp only [decide_eq_true_eq]
            omega
          have hlen := hsub.length_le
          omega
        · have hzero : ([t].filter (fun a => v < a ∧ a ≤ v + windowMs)).length = 0 := by
            simp only [List.filter, List.length]
            rw [decide_eq_false hv]
            rfl
          have := hcount v
          unfold countInWindow at this
          omega
      have hstate : pruneWindow t (pruneWindow T a0) ++ [t]
          = pruneWindow t (a0 ++ [t]) := by
        rw [hprune]
        exact pruneWindow_append_self t a0
      simp only [admittedTimes, heq, if_true, hstate]
      rw [show a0 ++ t :: admittedTimes limit (pruneWindow t (a0 ++ [t])) ts
          = (a0 ++ [t]) ++ admittedTimes limit (pruneWindow t (a0 ++ [t])) ts from by
        simp]
      exact ih t (a0 ++ [t]) hpw' hlow' hcount' u

/-- C4: for every run of `AllowRequest` calls with nondecreasing timestamps
and every subdomain, at most `limit` admitted requests fall in any
60-second window `(t, t + 60 s]`.  (`src/tunnel/ratelimit.go`,
`AllowRequest`.) -/
theorem admitted_window_le_limit (limit : Nat) (calls : List Call)
    (mono : calls.Pairwise (fun a b => a.time ≤ b.time)) (sub : String) (t : Int) :
    countInWindow t
      (((admittedCalls limit (fun _ => []) calls).filter
          (fun c => c.sub = sub)).map Call.time) ≤ limit := by
  rw [admittedCalls_project limit sub calls (fun _ => [])]
  have hpw : (((calls.filter (fun c => c.sub = sub)).map Call.time)).Pairwise (· ≤ ·) :=
    (List.pairwise_map).2 (mono.filter _)
  rcases hcase : (calls.filter (fun c => c.sub = sub)).map Call.time with _ | ⟨t0, rest⟩
  · rw [hcase]
    simp [admittedTimes, countInWindow]
  · rw [hcase]
    rw [hcase] at hpw
    have hlow : ∀ x ∈ t0 :: rest, t0 ≤ x := by
      intro x hx
      rcases List.mem_cons.1 hx with h | h
      · exact le_of_eq h.symm
      · exact (List.pairwise_cons.1 hpw).1 x h
    have hcnt : ∀ u, countInWindow u ([] : List Int) ≤ limit := by
      intro u
      simp [countInWindow]
    have := admittedTimes_window_bound limit (t0 :: rest) t0 [] hpw hlow hcnt t
    simpa [pruneWindow] using this

/-- C4 witness: two calls on subdomain `a` with limit 1 — at most one is
admitted into the window `(0, 60000]`. -/
theorem admitted_window_le_limit_witness :
    countInWindow 0
      (((admittedCalls 1 (fun _ => []) [⟨"a", 1000⟩, ⟨"a", 2000⟩]).filter
          (fun c => c.sub = "a")).map Call.time) ≤ 1 :=
  admitted_window_le_limit 1 [⟨"a", 1000⟩, ⟨"a", 2000⟩] (by decide) "a" 0

/-! ## Connection counters (`src/tunnel/ratelimit.go`, `AcquireConnection`,
`ReleaseConnection`)

`rl.connCounts` is a Go `map[string]int`: reading a missing key yields 0,
and `delete` removes an entry.  It is embedded as an association list of
`String × Int` so that presence of an entry is observable (the source
deletes the entry when the counter reaches zero). -/

/-- The `connCounts` map. -/
abbrev ConnCounts := List (String × Int)

/-- Go map read with zero default: `count := rl.connCounts[subdomain]`. -/
def lookupConn (m : ConnCounts) (s : String) : Int :=
  match m.find? (fun p => p.1 = s) with
  | some p => p.2
  | none => 0

/-- Go map write: `rl.connCounts[subdomain] = v`. -/
def setConn (m : ConnCounts) (s : String) (v : Int) : ConnCounts :=
  (s, v) :: m.filter (fun p => ¬ p.1 = s)

/-- Go `delete(rl.connCounts, subdomain)`. -/
def delConn (m : ConnCounts) (s : String) : ConnCounts :=
  m.filter (fun p => ¬ p.1 = s)

/-- Whether the map has an entry for `s`. -/
def hasConn (m : ConnCounts) (s : String) : Bool :=
  (m.find? (fun p => p.1 = s)).isSome

/-- `RateLimiter.AcquireConnection`: admitted iff `count < maxConns`;
returns (admitted, new map). -/
def AcquireConnection (maxConns : Int) (m : ConnCounts) (s : String) :
    Bool × ConnCounts :=
  let count := lookupConn m s
  if maxConns ≤ count then (false, m)
  else (true, setConn m s (count + 1))

/-- `RateLimiter.ReleaseConnection`: decrement if positive, then delete the
entry if the stored value is zero. -/
def ReleaseConnection (m : ConnCounts) (s : String) : ConnCounts :=
  let count := lookupConn m s
  let m1 := if 0 < count then setConn m s (count - 1) else m
  if lookupConn m1 s = 0 then delConn m1 s else m1

/-- A sequence of connection-counter operations. -/
inductive ConnOp
  | acquire (sub : String)
  | release (sub : String)

/-- Fold a sequence of `AcquireConnection` / `ReleaseConnection` calls. -/
def runConnOps (maxConns : Int) (m : ConnCounts) : List ConnOp → ConnCounts
  | [] => m
  | ConnOp.acquire s :: ops => runConnOps maxConns (AcquireConnection maxConns m s).2 ops
  | ConnOp.release s :: ops => runConnOps maxConns (ReleaseConnection m s) ops

lemma lookupConn_setConn_same (m : ConnCounts) (s : String) (v : Int) :
    lookupConn (setConn m s v) s = v := by
  simp [lookupConn, setConn, List.find?]

lemma find?_filter_ne (m : ConnCounts) (s : String) :
    (m.filter (fun p => ¬ p.1 = s)).find? (fun p => p.1 = s) = none := by
  induction m with
  | nil => rfl
  | cons p m ih =>
    by_cases hp : p.1 = s
    · simp only [List.filter_cons, hp]
      simp only [not_true, decide_False, if_false]
      exact ih
    · simp only [List.filter_cons, hp]
      simp only [not_false_iff, decide_True, if_true, List.find?]
      rw [decide_eq_false hp]
      exact ih

lemma lookupConn_delConn_same (m : ConnCounts) (s : String) :
    lookupConn (delConn m s) s = 0 := by
  unfold lookupConn delConn
  rw [find?_filter_ne]

lemma hasConn_delConn_same (m : ConnCounts) (s : String) :
    hasConn (delConn m s) s = false := by
  simp [hasConn, delConn, find?_filter_ne]

/-- Every entry a reachable `connCounts` map stores is at least 1. -/
def connInv (m : ConnCounts) : Prop :=
  ∀ p ∈ m, 1 ≤ p.2

lemma connInv_nil : connInv [] := by
  intro p hp
  cases hp

lemma connInv_lookup {m : ConnCounts} (h : connInv m) (s : String) :
    0 ≤ lookupConn m s := by
  unfold lookupConn
  cases hf : m.find? (fun p => p.1 = s) with
  | none => exact le_refl 0
  | some p =>
    have h1 : 1 ≤ p.2 := h p (List.mem_of_find?_eq_some hf)
    show (0 : Int) ≤ p.2
    omega

lemma connInv_setConn {m : ConnCounts} (h : connInv m) {s : String} {v : Int}
    (hv : 1 ≤ v) : connInv (setConn m s v) := by
  intro p hp
  rcases List.mem_cons.1 hp with hp | hp
  · rw [hp]
    exact hv
  · exact h p (List.mem_of_mem_filter hp)

lemma connInv_delConn {m : ConnCounts} (h : connInv m) (s : String) :
    connInv (delConn m s) := by
  intro p hp
  exact h p (List.mem_of_mem_filter hp)

lemma delConn_setConn (m : ConnCounts) (s : String) (v : Int) :
    delConn (setConn m s v) s = delConn m s := by
  simp only [delConn, setConn, List.filter_cons]
  simp only [not_true, decide_False, if_false]
  rw [List.filter_filter]
  apply List.filter_congr
  intro p _
  cases hp : decide (¬ p.1 = s) <;> simp [hp]

lemma connInv_acquire {m : ConnCounts} (h : connInv m) (maxConns : Int) (s : String) :
    connInv (AcquireConnection maxConns m s).2 := by
  unfold AcquireConnection
  by_cases hle : maxConns ≤ lookupConn m s
  · simpa [hle] using h
  · have h0 : 0 ≤ lookupConn m s := connInv_lookup h s
    simp only [hle, if_false]
    refine connInv_setConn h ?_
    omega

lemma connInv_release {m : ConnCounts} (h : connInv m) (s : String) :
    connInv (ReleaseConnection m s) := by
  unfold ReleaseConnection
  by_cases hpos : 0 < lookupConn m s
  · simp only [hpos, if_true]
    by_cases hz : lookupConn (setConn m s (lookupConn m s - 1)) s = 0
    · simp only [hz, if_true]
      rw [delConn_setConn]
      exact connInv_delConn h s
    · simp only [hz, if_false]
      rw [lookupConn_setConn_same] at hz
      refine connInv_setConn h ?_
      omega
  · simp only [hpos, if_false]
    by_cases hz : lookupConn m s = 0
    · simp only [hz, if_true]
      exact connInv_delConn h s
    · simp only [hz, if_false]
      exact h

lemma connInv_runConnOps (maxConns : Int) :
    ∀ (ops : List ConnOp) (m : ConnCounts), connInv m →
      connInv (runConnOps maxConns m ops) := by
  intro ops
  induction ops with
  | nil => intro m h; exact h
  | cons op ops ih =>
    intro m h
    cases op with
    | acquire s => exact ih _ (connInv_acquire h maxConns s)
    | release s => exact ih _ (connInv_release h s)

/-- C8: over any sequence of `AcquireConnection`/`ReleaseConnection`
operations from the empty map, every counter stays non-negative; `Acquire`
admits and increments exactly when the current count is strictly below
`maxConns` (otherwise the map is unchanged); `Release` decrements but never
below zero, and removes the subdomain's entry when the counter reaches
zero.  (`src/tunnel/ratelimit.go`.) -/
theorem connCounts_spec (maxConns : Int) (ops : List ConnOp) (s : String)
    (m : ConnCounts) (hm : m = runConnOps maxConns [] ops) :
    0 ≤ lookupConn m s
    ∧ ((AcquireConnection maxConns m s).1 = true ↔ lookupConn m s < maxConns)
    ∧ ((AcquireConnection maxConns m s).1 = true →
        lookupConn (AcquireConnection maxConns m s).2 s = lookupConn m s + 1)
    ∧ ((AcquireConnection maxConns m s).1 = false →
        (AcquireConnection maxConns m s).2 = m)
    ∧ lookupConn (ReleaseConnection m s) s = max 0 (lookupConn m s - 1)
    ∧ 0 ≤ lookupConn (ReleaseConnection m s) s
    ∧ (lookupConn m s ≤ 1 → hasConn (ReleaseConnection m s) s = false) := by
  have hinv : connInv m := by
    rw [hm]
    exact connInv_runConnOps maxConns ops [] connInv_nil
  have h0 : 0 ≤ lookupConn m s := connInv_lookup hinv s
  refine ⟨h0, ?_, ?_, ?_, ?_, ?_, ?_⟩
  · unfold AcquireConnection
    by_cases hle : maxConns ≤ lookupConn m s
    · simp [hle, not_lt.mpr hle]
    · simp [hle, not_le.1 hle]
  · intro hacq
    unfold AcquireConnection at hacq ⊢
    by_cases hle : maxConns ≤ lookupConn m s
    · simp [hle] at hacq
    · simp only [hle, if_false]
      exact lookupConn_setConn_same m s (lookupConn m s + 1)
  · intro hacq
    unfold AcquireConnection at hacq ⊢
    by_cases hle : maxConns ≤ lookupConn m s
    · simp [hle]
    · simp [hle] at hacq
  · unfold ReleaseConnection
    by_cases hpos : 0 < lookupConn m s
    · simp only [hpos, if_true]
      by_cases hz : lookupConn (setConn m s (lookupConn m s - 1)) s = 0
      · rw [if_pos hz, lookupConn_delConn_same]
        rw [lookupConn_setConn_same] at hz
        omega
      · rw [if_neg hz, lookupConn_setConn_same]
        rw [lookupConn_setConn_same] at hz
        omega
    · have hz' : lookupConn m s = 0 := by omega
      simp only [if_neg hpos, if_pos hz', lookupConn_delConn_same]
      omega
  · unfold ReleaseConnection
    by_cases hpos : 0 < lookupConn m s
    · simp only [hpos, if_true]
      by_cases hz : lookupConn (setConn m s (lookupConn m s - 1)) s = 0
      · rw [if_pos hz, lookupConn_delConn_same]
      · rw [if_neg hz, lookupConn_setConn_same]
        rw [lookupConn_setConn_same] at hz
        omega
    · have hz' : lookupConn m s = 0 := by omega
      simp only [if_neg hpos, if_pos hz', lookupConn_delConn_same]
      omega
  · intro hle1
    unfold ReleaseConnection
    by_cases hpos : 0 < lookupConn m s
    · have h1 : lookupConn m s = 1 := by omega
      have hz : lookupConn (setConn m s (lookupConn m s - 1)) s = 0 := by
        rw [lookupConn_setConn_same]
        omega
      simp only [hpos, if_true, hz, if_pos]
      exact hasConn_delConn_same _ s
    · have hz' : lookupConn m s = 0 := by omega
      simp only [if_neg hpos, if_pos hz']
      exact hasConn_delConn_same m s

/-- C8 witness: one acquire on subdomain `a` with limit 5. -/
theorem connCounts_spec_witness :
    0 ≤ lookupConn (runConnOps 5 [] [ConnOp.acquire "a"]) "a"
    ∧ ((AcquireConnection 5 (runConnOps 5 [] [ConnOp.acquire "a"]) "a").1 = true ↔
        lookupConn (runConnOps 5 [] [ConnOp.acquire "a"]) "a" < 5)
    ∧ ((AcquireConnection 5 (runConnOps 5 [] [ConnOp.acquire "a"]) "a").1 = true →
        lookupConn (AcquireConnection 5 (runConnOps 5 [] [ConnOp.acquire "a"]) "a").2 "a"
          = lookupConn (runConnOps 5 [] [ConnOp.acquire "a"]) "a" + 1)
    ∧ ((AcquireConnection 5 (runConnOps 5 [] [ConnOp.acquire "a"]) "a").1 = false →
        (AcquireConnection 5 (runConnOps 5 [] [ConnOp.acquire "a"]) "a").2
          = runConnOps 5 [] [ConnOp.acquire "a"])
    ∧ lookupConn (ReleaseConnection (runConnOps 5 [] [ConnOp.acquire "a"]) "a") "a"
        = max 0 (lookupConn (runConnOps 5 [] [ConnOp.acquire "a"]) "a" - 1)
    ∧ 0 ≤ lookupConn (ReleaseConnection (runConnOps 5 [] [ConnOp.acquire "a"]) "a") "a"
    ∧ (lookupConn (runConnOps 5 [] [ConnOp.acquire "a"]) "a" ≤ 1 →
        hasConn (ReleaseConnection (runConnOps 5 [] [ConnOp.acquire "a"]) "a") "a" = false) :=
  connCounts_spec 5 [ConnOp.acquire "a"] "a" _ rfl

/-! ## Host-based routing (`src/tunnel/server.go`,
`extractSubdomainFromHost` and `handleSubdomainProxy`)

Go strings are embedded as `List Char`; `strings.TrimPrefix`,
`strings.TrimSuffix`, `strings.Split(host, ":")[0]` and
`strings.Contains(sub, ".")` are embedded below. -/

/-- The literal `"http://"` stripped by `extractSubdomainFromHost`. -/
def httpPrefix : List Char := ['h', 't', 't', 'p', ':', '/', '/']

/-- The literal `"https://"` stripped by `extractSubdomainFromHost`. -/
def httpsPrefix : List Char := ['h', 't', 't', 'p', 's', ':', '/', '/']

/-- Go `strings.TrimPrefix(l, p)`: drop `p` if it heads `l`, else `l`. -/
def trimPrefix (p l : List Char) : List Char :=
  if p.isPrefixOf l then l.drop p.length else l

/-- Go `strings.TrimSuffix(l, sfx)`: drop a trailing `sfx` if present. -/
def trimSuffix (sfx l : List Char) : List Char :=
  if sfx.isSuffixOf l then l.take (l.length - sfx.length) else l

/-- Go `strings.Split(l, ":")[0]`: everything before the first colon. -/
def stripPort (l : List Char) : List Char :=
  l.takeWhile (fun c => ¬ c = ':')

/-- The host after the scheme and port stripping steps of
`extractSubdomainFromHost` (TrimPrefix `http://`, TrimPrefix `https://`,
Split on `":"` taking the first part, in source order). -/
def strippedHost (host : List Char) : List Char :=
  stripPort (trimPrefix httpsPrefix (trimPrefix httpPrefix host))

/-- `Server.extractSubdomainFromHost`: returns the single-label subdomain,
or `[]` (Go `""`) on any routing miss. -/
def extractSubdomainFromHost (domain host : List Char) : List Char :=
  let h := strippedHost host
  if domain = [] then []
  else if ¬ ('.' :: domain).isSuffixOf h then []
  else
    let sub := trimSuffix ('.' :: domain) h
    if '.' ∈ sub then [] else sub

/-- Outcome of `handleSubdomainProxy` up to the hand-off to `proxyToTunnel`. -/
inductive ProxyRoute
  | notFound
  | rateLimited (retryAfter : Int)
  | noTunnel
  | forward (sub : List Char) (target : List Char)
deriving DecidableEq

/-- The request-target `handleSubdomainProxy` forwards: `r.URL.Path`
(defaulted to `/` when empty), plus `?` and `r.URL.RawQuery` when the query
is non-empty. -/
def subdomainProxyTarget (path rawQuery : List Char) : List Char :=
  let p := if path = [] then ['/'] else path
  if rawQuery = [] then p else p ++ '?' :: rawQuery

/-- `Server.handleSubdomainProxy`'s routing decision.  `allow` stands for
the result of `rateLimiter.AllowRequest` on the extracted subdomain and
`hasSession` for `GetSession` finding a live session. -/
def handleSubdomainProxy (domain host : List Char) (allow : Bool × Int)
    (hasSession : Bool) (path rawQuery : List Char) : ProxyRoute :=
  let sub := extractSubdomainFromHost domain host
  if sub = [] then ProxyRoute.notFound
  else if ¬ allow.1 then ProxyRoute.rateLimited allow.2
  else if ¬ hasSession then ProxyRoute.noTunnel
  else ProxyRoute.forward sub (subdomainProxyTarget path rawQuery)

lemma trimPrefix_append (p l : List Char) : trimPrefix p (p ++ l) = l := by
  unfold trimPrefix
  rw [if_pos (List.isPrefixOf_iff_prefix.mpr ⟨l, rfl⟩), List.drop_left]

lemma trimPrefix_of_not_isPrefixOf {p l : List Char} (h : ¬ p.isPrefixOf l = true) :
    trimPrefix p l = l := by
  unfold trimPrefix
  rw [if_neg h]

lemma trimSuffix_append (sfx s : List Char) : trimSuffix sfx (s ++ sfx) = s := by
  unfold trimSuffix
  rw [if_pos (List.isSuffixOf_iff_suffix.mpr ⟨s, rfl⟩), List.length_append,
    Nat.add_sub_cancel, List.take_left]

lemma stripPort_of_no_colon {l : List Char} (h : ¬ ':' ∈ l) :
    stripPort l = l := by
  unfold stripPort
  rw [List.takeWhile_eq_self_iff]
  intro x hx
  simp only [decide_eq_true_eq]
  intro hc
  rw [hc] at hx
  exact h hx

lemma mem_of_isPrefixOf {p l : List Char} (hp : p.isPrefixOf l = true) {c : Char}
    (hc : c ∈ p) : c ∈ l :=
  (List.isPrefixOf_iff_prefix.mp hp).sublist.subset hc

lemma trimPrefix_of_no_colon {p l : List Char} (hp : ':' ∈ p) (h : ¬ ':' ∈ l) :
    trimPrefix p l = l :=
  trimPrefix_of_not_isPrefixOf (fun hpre => h (mem_of_isPrefixOf hpre hp))

lemma strippedHost_of_no_colon {l : List Char} (h : ¬ ':' ∈ l) :
    strippedHost l = l := by
  unfold strippedHost
  rw [trimPrefix_of_no_colon (by decide) h, trimPrefix_of_no_colon (by decide) h,
    stripPort_of_no_colon h]

lemma httpPrefix_not_isPrefixOf_https (l : List Char) :
    httpPrefix.isPrefixOf (httpsPrefix ++ l) = false := rfl

/-- The core extraction at a well-formed single-label host
`s ++ "." ++ domain` with no colons anywhere. -/
lemma extractSubdomainFromHost_strip (s domain : List Char)
    (hsdot : ¬ '.' ∈ s) (hscolon : ¬ ':' ∈ s)
    (hdcolon : ¬ ':' ∈ domain) (hd : domain ≠ []) :
    extractSubdomainFromHost domain (s ++ '.' :: domain) = s := by
  have hlcolon : ¬ ':' ∈ (s ++ '.' :: domain) := by
    intro hc
    rcases List.mem_append.1 hc with h | h
    · exact hscolon h
    · rcases List.mem_cons.1 h with h | h
      · exact absurd h (by decide)
      · exact hdcolon h
  unfold extractSubdomainFromHost
  rw [strippedHost_of_no_colon hlcolon]
  rw [if_neg hd]
  have hsuf : ('.' :: domain).isSuffixOf (s ++ '.' :: domain) = true :=
    List.isSuffixOf_iff_suffix.mpr ⟨s, rfl⟩
  rw [if_neg (not_not_intro hsuf)]
  rw [show trimSuffix ('.' :: domain) (s ++ '.' :: domain) = s from trimSuffix_append _ s]
  rw [if_neg hsdot]

/-- C10: `extractSubdomainFromHost` strips a literal `http://` or
`https://` scheme from the Host value before the port and domain-suffix
steps, so `http://s.d` and `https://s.d` resolve to the same subdomain `s`
as the bare `s.d` (for a single-label, colon-free `s` and colon-free
configured domain `d`).  (`src/tunnel/server.go`.) -/
theorem extractSubdomain_scheme_agnostic (s domain : List Char)
    (hsdot : ¬ '.' ∈ s) (hscolon : ¬ ':' ∈ s)
    (hdcolon : ¬ ':' ∈ domain) (hd : domain ≠ []) :
    extractSubdomainFromHost domain (httpPrefix ++ (s ++ '.' :: domain)) = s
    ∧ extractSubdomainFromHost domain (httpsPrefix ++ (s ++ '.' :: domain)) = s
    ∧ extractSubdomainFromHost domain (s ++ '.' :: domain) = s := by
  have hlcolon : ¬ ':' ∈ (s ++ '.' :: domain) := by
    intro hc
    rcases List.mem_append.1 hc with h | h
    · exact hscolon h
    · rcases List.mem_cons.1 h with h | h
      · exact absurd h (by decide)
      · exact hdcolon h
  have hbare := extractSubdomainFromHost_strip s domain hsdot hscolon hdcolon hd
  refine ⟨?_, ?_, hbare⟩
  · have hstrip : strippedHost (httpPrefix ++ (s ++ '.' :: domain))
        = strippedHost (s ++ '.' :: domain) := by
      unfold strippedHost
      rw [trimPrefix_append]
      rw [trimPrefix_of_no_colon (p := httpPrefix) (by decide) hlcolon]
    unfold extractSubdomainFromHost at hbare ⊢
    rw [hstrip]
    exact hbare
  · have hstrip : strippedHost (httpsPrefix ++ (s ++ '.' :: domain))
        = strippedHost (s ++ '.' :: domain) := by
      unfold strippedHost
      rw [show trimPrefix httpPrefix (httpsPrefix ++ (s ++ '.' :: domain))
          = httpsPrefix ++ (s ++ '.' :: domain) from
        trimPrefix_of_not_isPrefixOf (by
          rw [httpPrefix_not_isPrefixOf_https]
          exact fun h => Bool.noConfusion h)]
      rw [trimPrefix_append]
      rw [trimPrefix_of_no_colon (p := httpPrefix) (by decide) hlcolon,
        trimPrefix_of_no_colon (p := httpsPrefix) (by decide) hlcolon]
    unfold extractSubdomainFromHost at hbare ⊢
    rw [hstrip]
    exact hbare

/-- C10 witness: `sub.test.local` with and without a scheme. -/
theorem extractSubdomain_scheme_agnostic_witness :
    extractSubdomainFromHost "test.local".toList
        (httpPrefix ++ ("sub".toList ++ '.' :: "test.local".toList)) = "sub".toList
    ∧ extractSubdomainFromHost "test.local".toList
        (httpsPrefix ++ ("sub".toList ++ '.' :: "test.local".toList)) = "sub".toList
    ∧ extractSubdomainFromHost "test.local".toList
        ("sub".toList ++ '.' :: "test.local".toList) = "sub".toList :=
  extractSubdomain_scheme_agnostic "sub".toList "test.local".toList
    (by decide) (by decide) (by decide) (by decide)

/-- C5 counterexample: with domain `example.com` and Host `.example.com`,
the handler answers 404 although none of the three claimed miss conditions
holds — the domain is configured, the host ends in `.example.com`, and the
remaining label (empty) contains no dot.  The label being empty is a fourth
miss case. -/
theorem hostRouting404_counterexample :
    extractSubdomainFromHost "example.com".toList ".example.com".toList = []
    ∧ handleSubdomainProxy "example.com".toList ".example.com".toList (true, 0) true
        ['/'] [] = ProxyRoute.notFound
    ∧ "example.com".toList ≠ []
    ∧ ('.' :: "example.com".toList).isSuffixOf (strippedHost ".example.com".toList) = true
    ∧ ¬ '.' ∈ trimSuffix ('.' :: "example.com".toList) (strippedHost ".example.com".toList) := by
  decide

/-- C5 (amended): host-based dispatch answers 404 exactly when extraction
fails, which happens exactly when the configured domain is empty, the
scheme/port-stripped host does not end in `.<domain>`, the remaining label
is empty, or the remaining label contains a dot; otherwise the forwarded
request-target is the original path (`/` when empty) plus `?` and the query
string when present.  (`src/tunnel/server.go`.) -/
theorem hostRouting404_characterization (domain host : List Char)
    (allow : Bool × Int) (hasSession : Bool) (path rawQuery : List Char) :
    (handleSubdomainProxy domain host allow hasSession path rawQuery = ProxyRoute.notFound
      ↔ extractSubdomainFromHost domain host = [])
    ∧ (extractSubdomainFromHost domain host = [] ↔
        (domain = []
          ∨ ¬ ('.' :: domain).isSuffixOf (strippedHost host) = true
          ∨ trimSuffix ('.' :: domain) (strippedHost host) = []
          ∨ '.' ∈ trimSuffix ('.' :: domain) (strippedHost host)))
    ∧ (extractSubdomainFromHost domain host ≠ [] → allow.1 = true → hasSession = true →
        handleSubdomainProxy domain host allow hasSession path rawQuery
          = ProxyRoute.forward (extractSubdomainFromHost domain host)
              (subdomainProxyTarget path rawQuery))
    ∧ (path ≠ [] → rawQuery ≠ [] →
        subdomainProxyTarget path rawQuery = path ++ '?' :: rawQuery)
    ∧ (path ≠ [] → rawQuery = [] → subdomainProxyTarget path rawQuery = path) := by
  refine ⟨?_, ?_, ?_, ?_, ?_⟩
  · unfold handleSubdomainProxy
    by_cases hsub : extractSubdomainFromHost domain host = []
    · simp [hsub]
    · by_cases ha : allow.1 = true
      · by_cases hss : hasSession = true
        · simp [hsub, ha, hss]
        · simp [hsub, ha, hss]
      · simp [hsub, ha]
  · unfold extractSubdomainFromHost
    by_cases hd : domain = []
    · simp [hd]
    · by_cases hsuf : ('.' :: domain).isSuffixOf (strippedHost host) = true
      · by_cases hdot : '.' ∈ trimSuffix ('.' :: domain) (strippedHost host)
        · simp [hd, hsuf, hdot]
        · simp [hd, hsuf, hdot]
      · simp [hd, hsuf]
  · intro hsub ha hss
    unfold handleSubdomainProxy
    simp [hsub, ha, hss]
  · intro hp hq
    unfold subdomainProxyTarget
    simp [hp, hq]
  · intro hp hq
    unfold subdomainProxyTarget
    simp [hp, hq]

/-- C5 witness: Host `sub.test.local:8080`, path `/a`, query `x=1` forwards
target `/a?x=1` for subdomain `sub`. -/
theorem hostRouting404_characterization_witness :
    extractSubdomainFromHost "test.local".toList "sub.test.local:8080".toList ≠ []
    ∧ handleSubdomainProxy "test.local".toList "sub.test.local:8080".toList (true, 0) true
        "/a".toList "x=1".toList
      = ProxyRoute.forward
          (extractSubdomainFromHost "test.local".toList "sub.test.local:8080".toList)
          (subdomainProxyTarget "/a".toList "x=1".toList)
    ∧ subdomainProxyTarget "/a".toList "x=1".toList = "/a".toList ++ '?' :: "x=1".toList :=
  ⟨by decide,
   (hostRouting404_characterization "test.local".toList "sub.test.local:8080".toList
      (true, 0) true "/a".toList "x=1".toList).2.2.1 (by decide) rfl rfl,
   (hostRouting404_characterization "test.local".toList "sub.test.local:8080".toList
      (true, 0) true "/a".toList "x=1".toList).2.2.2.1 (by decide) (by decide)⟩

/-! ## Agent connect loop (`src/tunnel/client.go`, `connectWithBackoff`)

The loop repeatedly calls `c.connect(ctx)`.  On success it returns `nil`;
on failure with reconnection disabled it returns the failure; otherwise it
waits on `select { case <-ctx.Done(): return ctx.Err(); case
<-time.After(backoff): }`, then doubles `backoff` capping at
`c.maxBackoff = 60 s`.  One loop iteration is driven by an `AttemptEvent`:
the outcome of `connect` plus, on failure, whether cancellation fired
before the backoff timer.  Backoff is counted in seconds (source:
`time.Duration`, 1 s start, 60 s cap). -/

/-- Outcome of one iteration of the connect loop. -/
inductive AttemptEvent
  | success
  | failure (cancelledDuringWait : Bool)
deriving DecidableEq

/-- What `connectWithBackoff` returns: `ok` is the `nil` return,
`ctxCancelled` the `ctx.Err()` return, `connectError` the propagated
connect failure. -/
inductive ConnectOutcome
  | ok
  | ctxCancelled
  | connectError
deriving DecidableEq

/-- Whether the returned value is a non-nil error. -/
def outcomeIsError : ConnectOutcome → Bool
  | ConnectOutcome.ok => false
  | ConnectOutcome.ctxCancelled => true
  | ConnectOutcome.connectError => true

/-- The loop of `connectWithBackoff`, driven by the events; returns the
result (`none` when the event list ends before the loop does) and the list
of completed backoff waits, in seconds. -/
def connectLoop (reconnect : Bool) (maxBackoff : Nat) :
    Nat → List AttemptEvent → Option ConnectOutcome × List Nat
  | _, [] => (none, [])
  | _, AttemptEvent.success :: _ => (some ConnectOutcome.ok, [])
  | backoff, AttemptEvent.failure cancelled :: rest =>
    if !reconnect then (some ConnectOutcome.connectError, [])
    else if cancelled then (some ConnectOutcome.ctxCancelled, [])
    else
      let r := connectLoop reconnect maxBackoff (min (backoff * 2) maxBackoff) rest
      (r.1, backoff :: r.2)

/-- `Client.connectWithBackoff`: `backoff := 1 * time.Second`, cap
`c.maxBackoff = 60 * time.Second`. -/
def connectWithBackoff (reconnect : Bool) (events : List AttemptEvent) :
    Option ConnectOutcome × List Nat :=
  connectLoop reconnect 60 1 events

lemma min_double_cap (b : Nat) (i : Nat) :
    min (min (b * 2) 60 * 2 ^ i) 60 = min (b * 2 * 2 ^ i) 60 := by
  rcases le_total (b * 2) 60 with h | h
  · rw [min_eq_left h]
  · rw [min_eq_right h]
    have h1 : (60 : Nat) ≤ 60 * 2 ^ i :=
      Nat.le_mul_of_pos_right 60 (Nat.pos_pow_of_pos i (by omega))
    have h2 : (60 : Nat) ≤ b * 2 * 2 ^ i :=
      le_trans h (Nat.le_mul_of_pos_right _ (Nat.pos_pow_of_pos i (by omega)))
    rw [min_eq_right h1, min_eq_right h2]

lemma connectLoop_waits :
    ∀ (events : List AttemptEvent) (b : Nat), b ≤ 60 →
      ∀ i w, (connectLoop true 60 b events).2.get? i = some w →
        w = min (b * 2 ^ i) 60 := by
  intro events
  induction events with
  | nil =>
    intro b hb60 i w h
    simp [connectLoop] at h
  | cons e rest ih =>
    intro b hb60 i w h
    cases e with
    | success => simp [connectLoop] at h
    | failure cancelled =>
      cases cancelled with
      | true => simp [connectLoop] at h
      | false =>
        simp only [connectLoop, Bool.not_true, if_false] at h
        cases i with
        | zero =>
          simp only [List.get?] at h
          have hw : w = b := by
            injection h with h
            exact h.symm
          rw [hw, pow_zero, Nat.mul_one, min_eq_left hb60]
        | succ i =>
          simp only [List.get?] at h
          have := ih (min (b * 2) 60) (min_le_right _ _) i w h
          rw [this, min_double_cap, pow_succ]
          ring_nf

/-- C3 (amended): the waits between failed attempts are 1 s, 2 s, 4 s, …,
capped at 60 s (the i-th wait is `min 2^i 60`); with reconnection disabled
a single failure returns the connect error immediately with no wait; and
when cancellation fires while waiting the loop returns `ctx.Err()` — the
cancellation error, not a `nil` (error-free) return.
(`src/tunnel/client.go`, `connectWithBackoff`.) -/
theorem connectWithBackoff_spec (events : List AttemptEvent) :
    (∀ i w, (connectWithBackoff true events).2.get? i = some w → w = min (2 ^ i) 60)
    ∧ (∀ cancelled rest,
        connectWithBackoff false (AttemptEvent.failure cancelled :: rest)
          = (some ConnectOutcome.connectError, []))
    ∧ (∀ rest,
        connectWithBackoff true (AttemptEvent.failure true :: rest)
          = (some ConnectOutcome.ctxCancelled, []))
    ∧ (∀ rest,
        connectWithBackoff true (AttemptEvent.success :: rest)
          = (some ConnectOutcome.ok, [])) := by
  refine ⟨?_, ?_, ?_, ?_⟩
  · intro i w h
    have := connectLoop_waits events 1 (by omega) i w h
    rw [this, Nat.one_mul]
  · intro cancelled rest
    rfl
  · intro rest
    rfl
  · intro rest
    rfl

/-- C3 witness: concrete runs — two failures then success waits 1 s and
2 s; no-reconnect failure and cancelled wait return immediately. -/
theorem connectWithBackoff_spec_witness :
    (1 : Nat) = min (2 ^ 0) 60
    ∧ (2 : Nat) = min (2 ^ 1) 60
    ∧ connectWithBackoff false [AttemptEvent.failure false]
        = (some ConnectOutcome.connectError, [])
    ∧ connectWithBackoff true [AttemptEvent.failure true]
        = (some ConnectOutcome.ctxCancelled, []) :=
  ⟨(connectWithBackoff_spec [AttemptEvent.failure false, AttemptEvent.failure false,
      AttemptEvent.success]).1 0 1 (by decide),
   (connectWithBackoff_spec [AttemptEvent.failure false, AttemptEvent.failure false,
      AttemptEvent.success]).1 1 2 (by decide),
   (connectWithBackoff_spec []).2.1 false [],
   (connectWithBackoff_spec []).2.2.1 []⟩

/-- C3 counterexample: when cancellation fires during the backoff wait the
loop returns `ctx.Err()` (`context.Canceled`), a non-nil error — not the
error-free return the claim states. -/
theorem connectWithBackoff_cancel_returns_error :
    (connectWithBackoff true [AttemptEvent.failure true]).1
        = some ConnectOutcome.ctxCancelled
    ∧ outcomeIsError ConnectOutcome.ctxCancelled = true
    ∧ some ConnectOutcome.ctxCancelled ≠ some ConnectOutcome.ok := by
  decide

/-! ## Session admission (`src/tunnel/server.go`, `handleConnect`;
`src/tunnel/ratelimit.go`, `generateSubdomain`) -/

/-- The sixteen lowercase hex digits `encoding/hex` emits. -/
def hexDigits : List Char := "0123456789abcdef".toList

/-- One byte as two lowercase hex characters, high nibble first. -/
def hexEncodeByte (b : Nat) : List Char :=
  [hexDigits.getD (b / 16) '0', hexDigits.getD (b % 16) '0']

/-- `generateSubdomain`: hex-encode 4 random bytes (8 hex characters); the
random bytes are a parameter. -/
def generateSubdomain (randomBytes : List Nat) : List Char :=
  (randomBytes.map hexEncodeByte).flatten

/-- `Server.isSubdomainAvailable`: the subdomain is not a key of the
Session Registry. -/
def isSubdomainAvailable (registry : List (List Char)) (sub : List Char) : Bool :=
  ¬ sub ∈ registry

/-- The subdomain `handleConnect` assigns:
`subdomain := generateSubdomain(); if req.Subdomain != "" &&
s.isSubdomainAvailable(req.Subdomain) { subdomain = req.Subdomain }`. -/
def chooseSubdomain (registry : List (List Char)) (hint fresh : List Char) :
    List Char :=
  if ¬ hint = [] ∧ isSubdomainAvailable registry hint then hint else fresh

/-- The wire `HandshakeResponse` (`src/tunnel/ratelimit.go`). -/
structure HandshakeResponse where
  success : Bool
  subdomain : List Char
  publicURL : List Char
  error : List Char
deriving DecidableEq

/-- The public URL `handleConnect` computes:  `http://<sub>.<domain>`,
or `http://localhost/<sub>` when no domain is configured. -/
def sessionPublicURL (domain sub : List Char) : List Char :=
  if domain = [] then "http://localhost/".toList ++ sub
  else "http://".toList ++ (sub ++ '.' :: domain)

/-- `handleConnect` from the decoded HandshakeRequest to the
HandshakeResponse: choose the subdomain, reserve a connection slot
(`acquired` stands for the `AcquireConnection` result on the chosen
subdomain), and answer. -/
def handleConnectAdmit (registry : List (List Char)) (hint fresh domain : List Char)
    (acquired : Bool) : HandshakeResponse :=
  let sub := chooseSubdomain registry hint fresh
  if ¬ acquired then
    { success := false, subdomain := [], publicURL := [],
      error := "connection limit exceeded".toList }
  else
    { success := true, subdomain := sub, publicURL := sessionPublicURL domain sub,
      error := [] }

lemma hexDigits_getD_mem (n : Nat) : hexDigits.getD n '0' ∈ hexDigits := by
  by_cases h : n < hexDigits.length
  · rw [List.getD_eq_getElem _ _ h]
    exact List.getElem_mem h
  · rw [List.getD_eq_default _ _ (le_of_not_lt h)]
    decide

lemma generateSubdomain_cons (b : Nat) (bs : List Nat) :
    generateSubdomain (b :: bs) = hexEncodeByte b ++ generateSubdomain bs := rfl

lemma generateSubdomain_length (bytes : List Nat) :
    (generateSubdomain bytes).length = 2 * bytes.length := by
  induction bytes with
  | nil => rfl
  | cons b bs ih =>
    rw [generateSubdomain_cons, List.length_append, ih]
    simp only [hexEncodeByte, List.length_cons, List.length_nil, List.length]
    omega

lemma generateSubdomain_mem (bytes : List Nat) :
    ∀ c ∈ generateSubdomain bytes, c ∈ hexDigits := by
  induction bytes with
  | nil =>
    intro c hc
    cases hc
  | cons b bs ih =>
    intro c hc
    rw [generateSubdomain_cons] at hc
    rcases List.mem_append.1 hc with h | h
    · rcases List.mem_cons.1 h with h | h
      · rw [h]
        exact hexDigits_getD_mem _
      · rcases List.mem_cons.1 h with h | h
        · rw [h]
          exact hexDigits_getD_mem _
        · cases h
    · exact ih c h

/-- C6: the assigned subdomain is the agent's hint exactly when a non-empty
hint is not a current Registry key; otherwise it is the freshly generated
identifier, which is 8 hex characters; and a hint collision still yields a
successful handshake carrying the random subdomain with no error.
(`src/tunnel/server.go` `handleConnect`, `src/tunnel/ratelimit.go`
`generateSubdomain`.) -/
theorem handleConnect_subdomain_choice (registry : List (List Char))
    (hint domain : List Char) (bytes : List Nat) (hb : bytes.length = 4) :
    (hint ≠ [] → ¬ hint ∈ registry →
      chooseSubdomain registry hint (generateSubdomain bytes) = hint)
    ∧ ((hint = [] ∨ hint ∈ registry) →
      chooseSubdomain registry hint (generateSubdomain bytes) = generateSubdomain bytes)
    ∧ (generateSubdomain bytes).length = 8
    ∧ (∀ c ∈ generateSubdomain bytes, c ∈ hexDigits)
    ∧ (hint ≠ [] → hint ∈ registry →
        handleConnectAdmit registry hint (generateSubdomain bytes) domain true
          = { success := true, subdomain := generateSubdomain bytes,
              publicURL := sessionPublicURL domain (generateSubdomain bytes),
              error := [] }) := by
  refine ⟨?_, ?_, ?_, generateSubdomain_mem bytes, ?_⟩
  · intro h1 h2
    unfold chooseSubdomain
    rw [if_pos ⟨h1, by simp [isSubdomainAvailable, h2]⟩]
  · intro h
    unfold chooseSubdomain
    rcases h with h | h
    · rw [if_neg (fun hcon => hcon.1 h)]
    · rw [if_neg (fun hcon => by
        have := hcon.2
        simp [isSubdomainAvailable, h] at this)]
  · rw [generateSubdomain_length, hb]
  · intro h1 h2
    unfold handleConnectAdmit
    rw [if_neg (not_not_intro rfl)]
    have hch : chooseSubdomain registry hint (generateSubdomain bytes)
        = generateSubdomain bytes := by
      unfold chooseSubdomain
      rw [if_neg (fun hcon => by
        have := hcon.2
        simp [isSubdomainAvailable, h2] at this)]
    rw [hch]

/-- C6 witness: hint `taken` collides with the registry; the fresh bytes
`de ad be ef` give the 8-hex subdomain, and the handshake succeeds. -/
theorem handleConnect_subdomain_choice_witness :
    chooseSubdomain ["taken".toList] "taken".toList (generateSubdomain [222, 173, 190, 239])
        = generateSubdomain [222, 173, 190, 239]
    ∧ (generateSubdomain [222, 173, 190, 239]).length = 8
    ∧ handleConnectAdmit ["taken".toList] "taken".toList
        (generateSubdomain [222, 173, 190, 239]) "test.local".toList true
      = { success := true, subdomain := generateSubdomain [222, 173, 190, 239],
          publicURL := sessionPublicURL "test.local".toList
            (generateSubdomain [222, 173, 190, 239]),
          error := [] } :=
  ⟨(handleConnect_subdomain_choice ["taken".toList] "taken".toList "test.local".toList
      [222, 173, 190, 239] (by decide)).2.1 (Or.inr (by decide)),
   (handleConnect_subdomain_choice ["taken".toList] "taken".toList "test.local".toList
      [222, 173, 190, 239] (by decide)).2.2.1,
   (handleConnect_subdomain_choice ["taken".toList] "taken".toList "test.local".toList
      [222, 173, 190, 239] (by decide)).2.2.2.2 (by decide) (by decide)⟩

/-! ## Frames and the agent per-stream forwarder (`src/tunnel/client.go`,
`handleStream` and `sendError`) -/

/-- The wire `RequestFrame`.  The `id`, `method`, `url`, `headers` and
`body` fields are the `type RequestFrame struct` of
`src/tunnel/ratelimit.go`; the `traceID` field is read by `client.go`
(`req.TraceID`) whose declaring revision of the frame type is not in the
tree — Modelled from the spec: the frame carries the trace identifier
assigned by the Gateway. -/
structure RequestFrame where
  id : List Char
  method : List Char
  url : List Char
  headers : List (List Char × List Char)
  body : List Char
  traceID : List Char
deriving DecidableEq

/-- The wire `ResponseFrame` (`src/tunnel/ratelimit.go`). -/
structure ResponseFrame where
  id : List Char
  status : Int
  headers : List (List Char × List Char)
  body : List Char
deriving DecidableEq

/-- The three error exits of `handleStream` that happen before a local
response is obtained: `http.NewRequest` failing, `httpClient.Do` failing,
`io.ReadAll(resp.Body)` failing. -/
inductive LocalCallError
  | createRequestFailed
  | forwardFailed
  | readBodyFailed
deriving DecidableEq

/-- The local service's reply as `handleStream` sees it (status, first
value per header name, full body). -/
structure LocalResponse where
  status : Int
  headers : List (List Char × List Char)
  body : List Char
deriving DecidableEq

/-- `Client.sendError`: the synthetic ResponseFrame with empty header map
and body `tunnel error`. -/
def sendError (id : List Char) (status : Int) : ResponseFrame :=
  { id := id, status := status, headers := [], body := "tunnel error".toList }

/-- `Client.handleStream` after a RequestFrame decoded successfully: the
one ResponseFrame written back on the stream, as a function of the local
HTTP call's outcome.  Every error path calls
`sendError(stream, req.ID, http.StatusBadGateway)`. -/
def handleStream (req : RequestFrame)
    (localResult : Except LocalCallError LocalResponse) : ResponseFrame :=
  match localResult with
  | Except.error _ => sendError req.id 502
  | Except.ok resp =>
    { id := req.id, status := resp.status, headers := resp.headers, body := resp.body }

/-- C7: for every successfully decoded RequestFrame the forwarder produces
exactly one ResponseFrame (`handleStream` is a total function to a single
frame), carrying the request's correlation id; on any error before the
local response is obtained the frame has status 502 and body
`tunnel error`, and on success it relays the local status, headers and
body.  (`src/tunnel/client.go`.) -/
theorem handleStream_one_response (req : RequestFrame)
    (r : Except LocalCallError LocalResponse) :
    (handleStream req r).id = req.id
    ∧ (∀ e, r = Except.error e →
        (handleStream req r).status = 502
        ∧ (handleStream req r).body = "tunnel error".toList)
    ∧ (∀ resp, r = Except.ok resp →
        (handleStream req r).status = resp.status
        ∧ (handleStream req r).headers = resp.headers
        ∧ (handleStream req r).body = resp.body) := by
  refine ⟨?_, ?_, ?_⟩
  · cases r with
    | error e => rfl
    | ok resp => rfl
  · intro e he
    rw [he]
    exact ⟨rfl, rfl⟩
  · intro resp hr
    rw [hr]
    exact ⟨rfl, rfl, rfl⟩

/-- C7 witness: a concrete frame through the dial-failure path and the
success path. -/
theorem handleStream_one_response_witness :
    (handleStream
        { id := "01H".toList, method := "GET".toList, url := "/".toList,
          headers := [], body := [], traceID := [] }
        (Except.error LocalCallError.forwardFailed)).id = "01H".toList
    ∧ (handleStream
        { id := "01H".toList, method := "GET".toList, url := "/".toList,
          headers := [], body := [], traceID := [] }
        (Except.error LocalCallError.forwardFailed)).status = 502
    ∧ (handleStream
        { id := "01H".toList, method := "GET".toList, url := "/".toList,
          headers := [], body := [], traceID := [] }
        (Except.error LocalCallError.forwardFailed)).body = "tunnel error".toList
    ∧ (handleStream
        { id := "01H".toList, method := "GET".toList, url := "/".toList,
          headers := [], body := [], traceID := [] }
        (Except.ok { status := 200, headers := [], body := "hello".toList })).status
        = 200 :=
  ⟨(handleStream_one_response
      { id := "01H".toList, method := "GET".toList, url := "/".toList,
        headers := [], body := [], traceID := [] }
      (Except.error LocalCallError.forwardFailed)).1,
   ((handleStream_one_response
      { id := "01H".toList, method := "GET".toList, url := "/".toList,
        headers := [], body := [], traceID := [] }
      (Except.error LocalCallError.forwardFailed)).2.1
      LocalCallError.forwardFailed rfl).1,
   ((handleStream_one_response
      { id := "01H".toList, method := "GET".toList, url := "/".toList,
        headers := [], body := [], traceID := [] }
      (Except.error LocalCallError.forwardFailed)).2.1
      LocalCallError.forwardFailed rfl).2,
   ((handleStream_one_response
      { id := "01H".toList, method := "GET".toList, url := "/".toList,
        headers := [], body := [], traceID := [] }
      (Except.ok { status := 200, headers := [], body := "hello".toList })).2.2
      { status := 200, headers := [], body := "hello".toList } rfl).1⟩

/-! ## Gateway trace propagation (C1)

`proxyToTunnel` — shared by the path-based (`handleProxy`) and host-based
(`handleSubdomainProxy`) entry points — builds the RequestFrame and writes
the public response.  Its trace-aware revision is exercised by
`src/tunnel/trace_test.go` and consumed by `client.go` (`req.TraceID`),
but is not in the tree: the `server.go` revision present has no trace
handling and the frame type present lacks the `TraceID` field those
callers need.  The trace handling below is modelled from the spec
(§4.3 "Trace propagation"). -/

/-- Canonical single-valued header write (`Header.Set` semantics on the
frame's single-valued header map). -/
def setHeader (hs : List (List Char × List Char)) (k v : List Char) :
    List (List Char × List Char) :=
  (k, v) :: hs.filter (fun p => ¬ p.1 = k)

/-- Header lookup on a single-valued header map. -/
def getHeader (hs : List (List Char × List Char)) (k : List Char) :
    Option (List Char) :=
  (hs.find? (fun p => p.1 = k)).map Prod.snd

/-- The header name `X-Trace-ID`. -/
def xTraceID : List Char := "X-Trace-ID".toList

/-- Modelled from the spec: the trace identifier the Gateway uses for one
public request — the incoming `X-Trace-ID` value when the public request
already carries one (the Gateway MUST NOT override it), otherwise the
frame's fresh correlation id. -/
def gatewayTraceID (incoming : List (List Char × List Char)) (corrID : List Char) :
    List Char :=
  match getHeader incoming xTraceID with
  | some v => v
  | none => corrID

/-- Modelled from the spec: the RequestFrame the trace-aware
`proxyToTunnel` sends — fresh correlation id, method, computed
request-target, the public request's single-valued header map with
`X-Trace-ID` written, and the body. -/
def buildRequestFrame (corrID method target : List Char)
    (incoming : List (List Char × List Char)) (body : List Char) : RequestFrame :=
  { id := corrID, method := method, url := target,
    headers := setHeader incoming xTraceID (gatewayTraceID incoming corrID),
    body := body,
    traceID := gatewayTraceID incoming corrID }

/-- Modelled from the spec: the headers of the outgoing public response —
the ResponseFrame's headers copied over, with `X-Trace-ID` written. -/
def publicResponseHeaders (incoming : List (List Char × List Char))
    (corrID : List Char) (agentHeaders : List (List Char × List Char)) :
    List (List Char × List Char) :=
  setHeader agentHeaders xTraceID (gatewayTraceID incoming corrID)

lemma getHeader_setHeader_same (hs : List (List Char × List Char))
    (k v : List Char) : getHeader (setHeader hs k v) k = some v := by
  simp [getHeader, setHeader, List.find?]

/-- C1: on every proxied public request the Gateway sets `X-Trace-ID` on
both the RequestFrame's header map and the public response, both equal to
the frame's trace identifier; that identifier is the frame's fresh
correlation id when the incoming request carries no `X-Trace-ID`, and is
the incoming value unchanged when it does.  (Modelled from the spec; the
trace-aware `proxyToTunnel` is exercised by `src/tunnel/trace_test.go` but
absent from the tree.) -/
theorem gateway_trace_propagation (incoming : List (List Char × List Char))
    (corrID method target body : List Char)
    (agentHeaders : List (List Char × List Char)) :
    getHeader (buildRequestFrame corrID method target incoming body).headers xTraceID
        = some (gatewayTraceID incoming corrID)
    ∧ getHeader (publicResponseHeaders incoming corrID agentHeaders) xTraceID
        = some (gatewayTraceID incoming corrID)
    ∧ (getHeader incoming xTraceID = none →
        gatewayTraceID incoming corrID
          = (buildRequestFrame corrID method target incoming body).id)
    ∧ (∀ v, getHeader incoming xTraceID = some v →
        gatewayTraceID incoming corrID = v) := by
  refine ⟨getHeader_setHeader_same _ _ _, getHeader_setHeader_same _ _ _, ?_, ?_⟩
  · intro hnone
    unfold gatewayTraceID
    rw [hnone]
    rfl
  · intro v hv
    unfold gatewayTraceID
    rw [hv]

/-- C1 witness: without an incoming trace header the correlation id is
propagated; with one (`zzz`) it is preserved. -/
theorem gateway_trace_propagation_witness :
    getHeader (buildRequestFrame "01HXID".toList "GET".toList "/a".toList [] []).headers
        xTraceID = some (gatewayTraceID [] "01HXID".toList)
    ∧ gatewayTraceID [] "01HXID".toList
        = (buildRequestFrame "01HXID".toList "GET".toList "/a".toList [] []).id
    ∧ gatewayTraceID [(xTraceID, "zzz".toList)] "01HXID".toList = "zzz".toList :=
  ⟨(gateway_trace_propagation [] "01HXID".toList "GET".toList "/a".toList [] []).1,
   (gateway_trace_propagation [] "01HXID".toList "GET".toList "/a".toList []
      []).2.2.1 rfl,
   (gateway_trace_propagation [(xTraceID, "zzz".toList)] "01HXID".toList "GET".toList
      "/a".toList [] []).2.2.2 "zzz".toList (by decide)⟩

end DevTunnel
